import Mathlib

/-!
Verification development for the PierreFS branch-resolution and copy-up
engine (src/fs/pierrefs/main.c with the whiteout manager, and
src/fs/pierrefs/opts.c).  The C code is shallowly embedded: filesystem
state is a record of the objects present on each branch, external helper
routines that are not part of the two source files are modelled from the
specification with their outcomes injected through an environment record,
and each operation of the source becomes a pure state transformer.
-/

namespace PierreFS

/-- Maximum path length, the PATH_MAX constant used for every path buffer in wh.c and opts.c. -/
def PATH_MAX : Nat := 4096

/-- Error number ENOENT; the source returns its negation. -/
def ENOENT : Int := 2

/-- Error number EEXIST; the source returns its negation. -/
def EEXIST : Int := 17

/-- Error number EINVAL; the source returns its negation. -/
def EINVAL : Int := 22

/-- Error number ENAMETOOLONG; the source returns its negation. -/
def ENAMETOOLONG : Int := 36

/-- Origin constant for a path present only on the read-only branch. -/
def READ_ONLY : Int := 0

/-- Origin constant for a path present on the read-write branch without a read-only counterpart. -/
def READ_WRITE : Int := 1

/-- Origin constant for a path present on the read-write branch that was copied up from the read-only branch. -/
def READ_WRITE_COPYUP : Int := 2

/-- Flag for find_file restricting the probe to the read-only branch. -/
def MUST_READ_ONLY : Nat := 1

/-- File type mask of the mode bits. -/
def S_IFMT : Nat := 0xF000

/-- FIFO file type bits. -/
def S_IFIFO : Nat := 0x1000

/-- Directory file type bits, ored into the mode by pierrefs_mkdir. -/
def S_IFDIR : Nat := 0x4000

/-- Test for the FIFO file type, as used by pierrefs_mknod. -/
def S_ISFIFO (m : Nat) : Bool := m &&& S_IFMT == S_IFIFO

/-- Mount context: the two branch roots kept in pierrefs_sb_info (main.c). -/
structure Ctx where
  read_write_branch : String
  read_only_branch : String
  deriving DecidableEq

/-- Kind of an object living on the read-write branch: plain files (whiteout markers among them), directories, fifos, device nodes, symbolic links with their target text, hard links with their source path. -/
inductive RWKind where
  | plain
  | dir
  | fifo
  | node
  | sym (target : String)
  | hard (source : String)
  deriving DecidableEq, Repr

/-- One object on the read-write branch: its concrete path, kind and owning identity. -/
structure RWObj where
  path : String
  kind : RWKind
  uid : Nat
  gid : Nat
  deriving DecidableEq

/-- Filesystem state: concrete paths present on the read-only branch, objects present on the read-write branch, the me attribute records, and the attribute changes applied directly to RW objects. -/
structure State where
  roObjs : List String
  rwObjs : List RWObj
  meAttrs : List (String × Nat)
  directAttrs : List (String × Nat)
  deriving DecidableEq

/-- Modelled from the spec: outcomes of the external helpers that are not under src (creat_worker and notify_change inside the whiteout worker, find_path alias ensureAncestry of section 4.5, the permission checks of section 4.6, vfs_unlink, and the creation workers), together with the requesting identity. A zero error field means the helper succeeds. -/
structure Env where
  uid : Nat
  gid : Nat
  creatErr : Option Int
  chownErr : Int
  findPathErr : Int
  canCreateErr : Int
  canRemoveErr : Int
  unlinkErr : Int
  symlinkErr : Int
  linkErr : Int
  mkdirErr : Int
  mkfifoErr : Int
  mknodErr : Int
  deriving DecidableEq

/-- Concrete paths of the objects on the read-write branch. -/
def rwNames (st : State) : List String := st.rwObjs.map (fun o => o.path)

/-- Presence of a concrete path on the read-write branch. -/
def containsRW (st : State) (p : String) : Prop := p ∈ rwNames st

instance (st : State) (p : String) : Decidable (containsRW st p) :=
  inferInstanceAs (Decidable (p ∈ rwNames st))

/-- Removal of the object at a concrete path from the read-write branch (vfs_unlink). -/
def removeRW (st : State) (p : String) : State :=
  { st with rwObjs := st.rwObjs.filter (fun o => o.path != p) }

/-- Creation of an object on the read-write branch. -/
def addRW (st : State) (o : RWObj) : State :=
  { st with rwObjs := o :: st.rwObjs }

/-- Ownership change of the object at a concrete path (notify_change with ATTR_UID and ATTR_GID). -/
def chownRW (st : State) (p : String) (u g : Nat) : State :=
  { st with rwObjs := st.rwObjs.map (fun o => if o.path = p then { o with uid := u, gid := g } else o) }

/-- Owning identity of the object at a concrete path, if present. -/
def ownerRW (st : State) (p : String) : Option (Nat × Nat) :=
  (st.rwObjs.find? (fun o => o.path == p)).map (fun o => (o.uid, o.gid))

/-- Presence on the read-write branch of an object with the given concrete path and kind. -/
def hasObj (st : State) (p : String) (k : RWKind) : Prop :=
  ∃ o ∈ st.rwObjs, o.path = p ∧ o.kind = k

instance (st : State) (p : String) (k : RWKind) : Decidable (hasObj st p k) :=
  inferInstanceAs (Decidable (∃ o ∈ st.rwObjs, o.path = p ∧ o.kind = k))

/-- Splitting of a character list at its last slash, the effect of strrchr(path, slash): the prefix up to and including the last slash together with the remaining leaf, or none when no slash occurs. -/
def splitAtLastSlashAux : List Char → Option (List Char × List Char)
  | [] => none
  | c :: rest =>
    match splitAtLastSlashAux rest with
    | some (d, l) => some (c :: d, l)
    | none => if c = '/' then some ([c], rest) else none

/-- String form of the last-slash split used by the whiteout functions of wh.c. -/
def splitLastSlash (s : String) : Option (String × String) :=
  match splitAtLastSlashAux s.data with
  | some (d, l) => some (⟨d⟩, ⟨l⟩)
  | none => none

/-- Models snprintf(dst, size, s): the buffer receives at most size - 1 characters and the full untruncated length is returned to the caller. -/
def snprintf_copy (size : Nat) (s : String) : String × Nat :=
  (⟨s.data.take (size - 1)⟩, s.data.length)

/-- Whiteout path construction inlined in create_whiteout (wh.c): snprintf the RW branch root checking the result against PATH_MAX, append the leading part of the virtual path with its slash by strncat, the reserved token, and the leaf name. -/
def create_whiteout_path (ctx : Ctx) (path : String) : Except Int String :=
  match splitLastSlash path with
  | none => .error (-EINVAL)
  | some (d, l) =>
    let c := snprintf_copy PATH_MAX ctx.read_write_branch
    if (c.2 : Int) > (PATH_MAX : Int) then .error (-ENAMETOOLONG)
    else .ok (c.1 ++ d ++ ".wh." ++ l)

/-- Whiteout path construction inlined in find_whiteout (wh.c), character for character the same code as in create_whiteout. -/
def find_whiteout_path (ctx : Ctx) (path : String) : Except Int String :=
  match splitLastSlash path with
  | none => .error (-EINVAL)
  | some (d, l) =>
    let c := snprintf_copy PATH_MAX ctx.read_write_branch
    if (c.2 : Int) > (PATH_MAX : Int) then .error (-ENAMETOOLONG)
    else .ok (c.1 ++ d ++ ".wh." ++ l)

/-- Whiteout path construction inlined in unlink_whiteout (wh.c), again the same code. -/
def unlink_whiteout_path (ctx : Ctx) (path : String) : Except Int String :=
  match splitLastSlash path with
  | none => .error (-EINVAL)
  | some (d, l) =>
    let c := snprintf_copy PATH_MAX ctx.read_write_branch
    if (c.2 : Int) > (PATH_MAX : Int) then .error (-ENAMETOOLONG)
    else .ok (c.1 ++ d ++ ".wh." ++ l)

/-- Embeds find_whiteout (wh.c): build the marker path and vfs_lstat it, zero when the marker object exists. -/
def find_whiteout (ctx : Ctx) (st : State) (path : String) : Int :=
  match find_whiteout_path ctx path with
  | .error e => e
  | .ok wh => if containsRW st wh then 0 else -ENOENT

/-- Embeds unlink_whiteout (wh.c): build the marker path, look its dentry up, and vfs_unlink it; a missing marker makes the dentry lookup fail and that error is returned. -/
def unlink_whiteout (ctx : Ctx) (st : State) (path : String) : Int × State :=
  match unlink_whiteout_path ctx path with
  | .error e => (e, st)
  | .ok wh =>
    if containsRW st wh then (0, removeRW st wh)
    else (-ENOENT, st)

/-- Embeds create_whiteout_worker (wh.c): creat_worker creates the marker owned by the requesting identity, notify_change sets the owner to uid 0 and gid 0; on success the function returns at once, otherwise the just created marker is closed, unlinked and the error is returned. Helper outcomes are injected through env. -/
def create_whiteout_worker (env : Env) (st : State) (wh_path : String) : Int × State :=
  match env.creatErr with
  | some e => (e, st)
  | none =>
    let st1 := addRW (removeRW st wh_path) ⟨wh_path, RWKind.plain, env.uid, env.gid⟩
    if env.chownErr = 0 then (0, chownRW st1 wh_path 0 0)
    else (env.chownErr, removeRW st1 wh_path)

/-- Modelled from the spec: find_path is not under src; per ensureAncestry of section 4.5 it materializes the RW ancestry of the virtual path and yields the composed RW concrete path, with storage failures injected through env. -/
def find_path (ctx : Ctx) (env : Env) (path : String) : Except Int String :=
  if env.findPathErr < 0 then .error env.findPathErr
  else .ok (ctx.read_write_branch ++ path)

/-- Embeds create_whiteout (wh.c): build the marker path, ensure the virtual path exists through find_path, and run the worker. -/
def create_whiteout (ctx : Ctx) (env : Env) (st : State) (path : String) : Int × State :=
  match create_whiteout_path ctx path with
  | .error e => (e, st)
  | .ok wh =>
    match find_path ctx env path with
    | .error e => (e, st)
    | .ok _ => create_whiteout_worker env st wh

/-- Modelled from the spec: find_file, the Branch Resolver of section 4.4, is not under src. Resolution checks the whiteout marker first, then probes the RW branch, distinguishing a copied-up object by its surviving RO counterpart, then the RO branch; with MUST_READ_ONLY only the RO branch is accepted. It returns the origin constant and the concrete path of the winning branch. -/
def find_file (ctx : Ctx) (st : State) (path : String) (flags : Nat) : Int × String :=
  if find_whiteout ctx st path = 0 then (-ENOENT, "")
  else if flags = MUST_READ_ONLY then
    if (ctx.read_only_branch ++ path) ∈ st.roObjs then
      (READ_ONLY, ctx.read_only_branch ++ path)
    else (-ENOENT, "")
  else if containsRW st (ctx.read_write_branch ++ path) then
    (if (ctx.read_only_branch ++ path) ∈ st.roObjs then READ_WRITE_COPYUP else READ_WRITE,
     ctx.read_write_branch ++ path)
  else if (ctx.read_only_branch ++ path) ∈ st.roObjs then
    (READ_ONLY, ctx.read_only_branch ++ path)
  else (-ENOENT, "")

/-- Embeds unlink_rw_file (wh.c): probe the RO counterpart unless the caller asserts it, check removal permission, unlink the RW object, and when a RO counterpart is known attempt a whiteout, discarding the outcome of that attempt. -/
def unlink_rw_file (ctx : Ctx) (env : Env) (st : State) (path rw_path : String) (has_ro_sure : Bool) : Int × State :=
  let has_ro : Bool :=
    if has_ro_sure then true
    else decide ((find_file ctx st path MUST_READ_ONLY).1 ≥ 0)
  if env.canRemoveErr < 0 then (env.canRemoveErr, st)
  else if ¬ containsRW st rw_path then (-ENOENT, st)
  else if env.unlinkErr < 0 then (env.unlinkErr, st)
  else
    let st1 := removeRW st rw_path
    if has_ro then (0, (create_whiteout ctx env st1 path).2)
    else (0, st1)

/-- Embeds hide_directory_contents (wh.c): the source is a stub unconditionally returning the EINVAL failure. -/
def hide_directory_contents (_path : String) : Int := -EINVAL

/-- Modelled from the spec: make_rw_path is not under src; it composes the RW branch root with the virtual path, compose of section 4.1, snprintf style: the buffer gets at most PATH_MAX - 1 characters and the untruncated length is returned for the PATH_MAX test of the callers. -/
def make_rw_path (ctx : Ctx) (path : String) : String × Nat :=
  snprintf_copy PATH_MAX (ctx.read_write_branch ++ path)

/-- Embeds pierrefs_link (opts.c): resolve the source, fail with EEXIST when the destination resolves, check creation permission, ensure the destination ancestry; a READ_ONLY source falls back to a symbolic link whose target is the concrete source path, any other origin makes a true hard link at the composed RW path; finally a possible whiteout on the destination is removed with the outcome discarded. -/
def pierrefs_link (ctx : Ctx) (env : Env) (st : State) (fromPath toPath : String) : Int × State :=
  let ff := find_file ctx st fromPath 0
  if ff.1 < 0 then (ff.1, st)
  else
    let ft := find_file ctx st toPath 0
    if ft.1 ≥ 0 then (-EEXIST, st)
    else if env.canCreateErr < 0 then (env.canCreateErr, st)
    else
      match find_path ctx env toPath with
      | .error e => (e, st)
      | .ok real_to =>
        if ff.1 = READ_ONLY then
          if env.symlinkErr < 0 then (env.symlinkErr, st)
          else
            let st1 := addRW st ⟨real_to, RWKind.sym ff.2, env.uid, env.gid⟩
            (0, (unlink_whiteout ctx st1 toPath).2)
        else
          let mk := make_rw_path ctx toPath
          if (mk.2 : Int) > (PATH_MAX : Int) then (-ENAMETOOLONG, st)
          else if env.linkErr < 0 then (env.linkErr, st)
          else
            let st1 := addRW st ⟨mk.1, RWKind.hard ff.2, env.uid, env.gid⟩
            (0, (unlink_whiteout ctx st1 toPath).2)

/-- Embeds pierrefs_mkdir (opts.c): fail with EEXIST when the path resolves, check the composed RW path length, check creation permission, ensure ancestry, create the directory, then run the directory hiding step whose stub failure rolls the creation back; on full success a possible whiteout is removed with the outcome discarded. -/
def pierrefs_mkdir (ctx : Ctx) (env : Env) (st : State) (path : String) (_mode : Nat) : Int × State :=
  let f := find_file ctx st path 0
  if f.1 ≥ 0 then (-EEXIST, st)
  else
    let mk := make_rw_path ctx path
    if (mk.2 : Int) > (PATH_MAX : Int) then (-ENAMETOOLONG, st)
    else if env.canCreateErr < 0 then (env.canCreateErr, st)
    else
      match find_path ctx env path with
      | .error e => (e, st)
      | .ok real_path =>
        if env.mkdirErr < 0 then (env.mkdirErr, st)
        else
          let st1 := addRW st ⟨real_path, RWKind.dir, env.uid, env.gid⟩
          let hide := hide_directory_contents path
          if hide < 0 then (hide, removeRW st1 real_path)
          else (0, (unlink_whiteout ctx st1 path).2)

/-- Embeds pierrefs_mknod (opts.c): fail with EEXIST when the path resolves, ensure ancestry, create a fifo or a node depending on the mode, then remove a possible whiteout with the outcome discarded. -/
def pierrefs_mknod (ctx : Ctx) (env : Env) (st : State) (path : String) (mode : Nat) : Int × State :=
  let f := find_file ctx st path 0
  if f.1 ≥ 0 then (-EEXIST, st)
  else
    match find_path ctx env path with
    | .error e => (e, st)
    | .ok real_path =>
      if S_ISFIFO mode then
        if env.mkfifoErr < 0 then (env.mkfifoErr, st)
        else
          let st1 := addRW st ⟨real_path, RWKind.fifo, env.uid, env.gid⟩
          (0, (unlink_whiteout ctx st1 path).2)
      else
        if env.mknodErr < 0 then (env.mknodErr, st)
        else
          let st1 := addRW st ⟨real_path, RWKind.node, env.uid, env.gid⟩
          (0, (unlink_whiteout ctx st1 path).2)

/-- Embeds pierrefs_symlink (opts.c): fail with EEXIST when the destination resolves, check the composed RW path length, check creation permission, ensure ancestry, create the symbolic link carrying the requested target text, then remove a possible whiteout with the outcome discarded. -/
def pierrefs_symlink (ctx : Ctx) (env : Env) (st : State) (toPath symname : String) : Int × State :=
  let f := find_file ctx st toPath 0
  if f.1 ≥ 0 then (-EEXIST, st)
  else
    let mk := make_rw_path ctx toPath
    if (mk.2 : Int) > (PATH_MAX : Int) then (-ENAMETOOLONG, st)
    else if env.canCreateErr < 0 then (env.canCreateErr, st)
    else
      match find_path ctx env toPath with
      | .error e => (e, st)
      | .ok real_to =>
        if env.symlinkErr < 0 then (env.symlinkErr, st)
        else
          let st1 := addRW st ⟨real_to, RWKind.sym symname, env.uid, env.gid⟩
          (0, (unlink_whiteout ctx st1 toPath).2)

/-- Embeds pierrefs_setattr (opts.c); notify_change and set_me_worker are not under src and their effects are modelled from the spec, section 4.3 set: a direct attribute application on the RW object, respectively a me marker record for the path. -/
def pierrefs_setattr (ctx : Ctx) (st : State) (path : String) (attr : Nat) : Int × State :=
  let f := find_file ctx st path 0
  if f.1 < 0 then (f.1, st)
  else if f.1 = READ_WRITE ∨ f.1 = READ_WRITE_COPYUP then
    (0, { st with directAttrs := (path, attr) :: st.directAttrs })
  else
    (0, { st with meAttrs := (path, attr) :: st.meAttrs })

/-- Sample mount context for concrete evaluations. -/
def ctx0 : Ctx := ⟨"/rw", "/ro"⟩

/-- Environment in which every external helper succeeds, the requesting identity being uid 1000 and gid 1000. -/
def envOk : Env := ⟨1000, 1000, none, 0, 0, 0, 0, 0, 0, 0, 0, 0, 0⟩

/-- Environment in which the ownership change inside the whiteout worker fails with a permission style error. -/
def envChownFail : Env := { envOk with chownErr := -1 }

/-- Empty filesystem state. -/
def stEmpty : State := ⟨[], [], [], []⟩

/-- State holding the read-only original of the virtual path slash f together with its whiteout marker on the RW branch. -/
def stMark : State := ⟨["/ro/f"], [⟨"/rw/.wh.f", RWKind.plain, 0, 0⟩], [], []⟩

/-- State holding only the read-only original of the virtual path slash f. -/
def stRoF : State := ⟨["/ro/f"], [], [], []⟩

/-- State holding read-only originals of the virtual paths slash a and slash b. -/
def stRoAB : State := ⟨["/ro/a", "/ro/b"], [], [], []⟩

/-- State holding a read-only original of slash f together with a copied-up RW object for it. -/
def stRwF : State := ⟨["/ro/f"], [⟨"/rw/f", RWKind.plain, 5, 5⟩], [], []⟩

/-- Leaf name of 4092 characters used to overflow the whiteout path buffer. -/
def longLeaf : String := ⟨List.replicate 4092 'a'⟩

/-- Virtual path of 4093 characters, itself below PATH_MAX, whose whiteout marker path exceeds PATH_MAX. -/
def longPath : String := "/" ++ longLeaf

theorem data_append (a b : String) : (a ++ b).data = a.data ++ b.data := by
  cases a
  cases b
  rfl

theorem ne_of_data_length_ne {a b : String} (h : a.data.length ≠ b.data.length) : a ≠ b := by
  intro e
  exact h (by rw [e])

theorem splitAtLastSlashAux_eq_none {l : List Char} (h : '/' ∉ l) :
    splitAtLastSlashAux l = none := by
  induction l with
  | nil => rfl
  | cons c rest ih =>
    have hc : ¬ (c = '/') := by
      intro e
      exact h (e ▸ List.mem_cons_self c rest)
    have hr : '/' ∉ rest := fun m => h (List.mem_cons_of_mem _ m)
    rw [splitAtLastSlashAux, ih hr, if_neg hc]

theorem splitAtLastSlashAux_append (d : List Char) {l : List Char} (h : '/' ∉ l) :
    splitAtLastSlashAux (d ++ '/' :: l) = some (d ++ ['/'], l) := by
  induction d with
  | nil =>
    rw [List.nil_append, splitAtLastSlashAux, splitAtLastSlashAux_eq_none h, if_pos rfl]
    rfl
  | cons c rest ih =>
    rw [List.cons_append, splitAtLastSlashAux, ih]
    rfl

theorem splitAtLastSlashAux_join {cs d l : List Char}
    (h : splitAtLastSlashAux cs = some (d, l)) : d ++ l = cs := by
  induction cs generalizing d l with
  | nil => exact absurd h (by simp [splitAtLastSlashAux])
  | cons c rest ih =>
    rw [splitAtLastSlashAux] at h
    rcases hr : splitAtLastSlashAux rest with _ | ⟨dd, ll⟩
    · rw [hr] at h
      by_cases hc : c = '/'
      · rw [if_pos hc] at h
        simp only [Option.some.injEq, Prod.mk.injEq] at h
        obtain ⟨h1, h2⟩ := h
        subst h1
        subst h2
        simp [hc]
      · rw [if_neg hc] at h
        exact absurd h (by simp)
    · rw [hr] at h
      simp only [Option.some.injEq, Prod.mk.injEq] at h
      obtain ⟨h1, h2⟩ := h
      subst h1
      subst h2
      have := ih hr
      simpa using congrArg (c :: ·) this

theorem splitLastSlash_append (D L : String) (hL : '/' ∉ L.data) :
    splitLastSlash (D ++ "/" ++ L) = some (D ++ "/", L) := by
  have hdata : (D ++ "/" ++ L).data = D.data ++ '/' :: L.data := by
    rw [data_append, data_append]
    simp
  rw [splitLastSlash, hdata, splitAtLastSlashAux_append D.data hL]
  have h1 : (⟨D.data ++ ['/']⟩ : String) = D ++ "/" := by
    cases D
    rfl
  show some ((⟨D.data ++ ['/']⟩ : String), (⟨L.data⟩ : String)) = some (D ++ "/", L)
  rw [h1]

theorem splitLastSlash_join {path d l : String} (h : splitLastSlash path = some (d, l)) :
    d.data ++ l.data = path.data := by
  rw [splitLastSlash] at h
  rcases hr : splitAtLastSlashAux path.data with _ | ⟨dd, ll⟩ <;> rw [hr] at h
  · exact absurd h (by simp)
  · simp only [Option.some.injEq, Prod.mk.injEq] at h
    obtain ⟨h1, h2⟩ := h
    subst h1
    subst h2
    exact splitAtLastSlashAux_join hr

theorem snprintf_copy_full {size : Nat} {s : String} (h : s.data.length < size) :
    snprintf_copy size s = (s, s.data.length) := by
  rw [snprintf_copy]
  have ht : s.data.take (size - 1) = s.data := List.take_of_length_le (by omega)
  rw [ht]

theorem create_whiteout_path_ok (ctx : Ctx) {path d l : String}
    (hsplit : splitLastSlash path = some (d, l))
    (hlen : ctx.read_write_branch.data.length < PATH_MAX) :
    create_whiteout_path ctx path = .ok (ctx.read_write_branch ++ d ++ ".wh." ++ l) := by
  rw [create_whiteout_path, hsplit]
  simp only [snprintf_copy_full hlen]
  rw [if_neg]
  have h4 : ctx.read_write_branch.data.length < 4096 := by
    simpa [PATH_MAX] using hlen
  simp only [PATH_MAX]
  omega

theorem find_whiteout_path_eq : find_whiteout_path = create_whiteout_path := rfl

theorem unlink_whiteout_path_eq : unlink_whiteout_path = create_whiteout_path := rfl

theorem whiteout_path_data_length (ctx : Ctx) {path d l w : String}
    (hsplit : splitLastSlash path = some (d, l))
    (hlen : ctx.read_write_branch.data.length < PATH_MAX)
    (hok : create_whiteout_path ctx path = .ok w) :
    w.data.length = ctx.read_write_branch.data.length + path.data.length + 4 := by
  rw [create_whiteout_path_ok ctx hsplit hlen] at hok
  have hw : w = ctx.read_write_branch ++ d ++ ".wh." ++ l := by
    cases hok
    rfl
  subst hw
  have hj := splitLastSlash_join hsplit
  have hdl : d.data.length + l.data.length = path.data.length := by
    rw [← hj, List.length_append]
  have h4 : (".wh." : String).data.length = 4 := rfl
  simp only [data_append, List.length_append, h4]
  omega

theorem containsRW_addRW {st : State} {o : RWObj} {p : String} :
    containsRW (addRW st o) p ↔ p = o.path ∨ containsRW st p := by
  simp [containsRW, rwNames, addRW]

theorem containsRW_removeRW {st : State} {p q : String} :
    containsRW (removeRW st p) q ↔ containsRW st q ∧ q ≠ p := by
  simp only [containsRW, rwNames, removeRW, List.mem_map, List.mem_filter, bne_iff_ne]
  constructor
  · rintro ⟨o, ⟨ho, hne⟩, rfl⟩
    exact ⟨⟨o, ho, rfl⟩, hne⟩
  · rintro ⟨⟨o, ho, rfl⟩, hne⟩
    exact ⟨o, ⟨ho, hne⟩, rfl⟩

theorem map_path_chown_aux (l : List RWObj) (p : String) (u g : Nat) :
    (l.map (fun o => if o.path = p then { o with uid := u, gid := g } else o)).map
        (fun o => o.path) =
      l.map (fun o => o.path) := by
  induction l with
  | nil => rfl
  | cons o rest ih =>
    simp only [List.map_cons, ih, List.cons.injEq, and_true]
    by_cases hp : o.path = p <;> simp [hp]

theorem rwNames_chownRW (st : State) (p : String) (u g : Nat) :
    rwNames (chownRW st p u g) = rwNames st := by
  simp only [rwNames, chownRW]
  exact map_path_chown_aux st.rwObjs p u g

theorem containsRW_chownRW {st : State} {p : String} {u g : Nat} {q : String} :
    containsRW (chownRW st p u g) q ↔ containsRW st q := by
  rw [containsRW, containsRW, rwNames_chownRW]

theorem hasObj_addRW {st : State} {o : RWObj} {p : String} {k : RWKind} :
    hasObj (addRW st o) p k ↔ (o.path = p ∧ o.kind = k) ∨ hasObj st p k := by
  simp [hasObj, addRW]

theorem hasObj_removeRW {st : State} {p q : String} {k : RWKind} :
    hasObj (removeRW st p) q k ↔ hasObj st q k ∧ q ≠ p := by
  simp only [hasObj, removeRW, List.mem_filter, bne_iff_ne]
  constructor
  · rintro ⟨o, ⟨ho, hne⟩, rfl, hk⟩
    exact ⟨⟨o, ho, rfl, hk⟩, hne⟩
  · rintro ⟨⟨o, ho, rfl, hk⟩, hne⟩
    exact ⟨o, ⟨ho, hne⟩, rfl, hk⟩

theorem containsRW_of_hasObj {st : State} {p : String} {k : RWKind} (h : hasObj st p k) :
    containsRW st p := by
  obtain ⟨o, ho, rfl, _⟩ := h
  exact List.mem_map_of_mem (fun o => o.path) ho

theorem ownerRW_removeRW_self (st : State) (p : String) :
    ownerRW (removeRW st p) p = none := by
  have hf : (removeRW st p).rwObjs.find? (fun o => o.path == p) = none := by
    rw [List.find?_eq_none]
    intro o ho
    have := (List.mem_filter.mp ho).2
    simpa using this
  rw [ownerRW, hf]
  rfl

theorem ownerRW_chownRW_addRW (st : State) (p : String) (k : RWKind) (u g u2 g2 : Nat) :
    ownerRW (chownRW (addRW st ⟨p, k, u, g⟩) p u2 g2) p = some (u2, g2) := by
  simp [ownerRW, chownRW, addRW, List.find?]

theorem roObjs_unlink_whiteout (ctx : Ctx) (st : State) (path : String) :
    (unlink_whiteout ctx st path).2.roObjs = st.roObjs := by
  rw [unlink_whiteout]
  split
  · rfl
  · split <;> rfl

theorem roObjs_create_whiteout_worker (env : Env) (st : State) (wh : String) :
    (create_whiteout_worker env st wh).2.roObjs = st.roObjs := by
  unfold create_whiteout_worker
  split
  · rfl
  · split <;> rfl

theorem roObjs_create_whiteout (ctx : Ctx) (env : Env) (st : State) (path : String) :
    (create_whiteout ctx env st path).2.roObjs = st.roObjs := by
  rw [create_whiteout]
  split
  · rfl
  · split
    · rfl
    · exact roObjs_create_whiteout_worker env st _

theorem find_file_spec (ctx : Ctx) (st : State) (p : String) :
    find_file ctx st p 0 =
      if find_whiteout ctx st p = 0 then (-ENOENT, "")
      else if containsRW st (ctx.read_write_branch ++ p) then
        (if (ctx.read_only_branch ++ p) ∈ st.roObjs then READ_WRITE_COPYUP else READ_WRITE,
         ctx.read_write_branch ++ p)
      else if (ctx.read_only_branch ++ p) ∈ st.roObjs then
        (READ_ONLY, ctx.read_only_branch ++ p)
      else (-ENOENT, "") := by
  rw [find_file]
  have h2 : ¬ ((0 : Nat) = MUST_READ_ONLY) := by decide
  rw [if_neg h2]

theorem find_file_must_ro_spec (ctx : Ctx) (st : State) (p : String) :
    find_file ctx st p MUST_READ_ONLY =
      if find_whiteout ctx st p = 0 then (-ENOENT, "")
      else if (ctx.read_only_branch ++ p) ∈ st.roObjs then
        (READ_ONLY, ctx.read_only_branch ++ p)
      else (-ENOENT, "") := by
  rw [find_file]
  rw [if_pos rfl]

theorem find_file_snd_of_ro {ctx : Ctx} {st : State} {p : String}
    (h : (find_file ctx st p 0).1 = READ_ONLY) :
    (find_file ctx st p 0).2 = ctx.read_only_branch ++ p := by
  rw [find_file_spec] at h ⊢
  by_cases h1 : find_whiteout ctx st p = 0
  · rw [if_pos h1] at h
    exact absurd (h : -ENOENT = READ_ONLY) (by decide)
  · rw [if_neg h1] at h ⊢
    by_cases h3 : containsRW st (ctx.read_write_branch ++ p)
    · rw [if_pos h3] at h
      by_cases h4 : (ctx.read_only_branch ++ p) ∈ st.roObjs
      · rw [if_pos h4] at h
        have h5 : READ_WRITE_COPYUP = READ_ONLY := h
        exact absurd h5 (by decide)
      · rw [if_neg h4] at h
        have h5 : READ_WRITE = READ_ONLY := h
        exact absurd h5 (by decide)
    · rw [if_neg h3] at h ⊢
      by_cases h4 : (ctx.read_only_branch ++ p) ∈ st.roObjs
      · rw [if_pos h4]
      · rw [if_neg h4] at h
        exact absurd (h : -ENOENT = READ_ONLY) (by decide)

theorem worker_owner_of_success (env : Env) (st : State) (w : String)
    (hc : ∀ e, env.creatErr = some e → e < 0)
    (h0 : (create_whiteout_worker env st w).1 = 0) :
    ownerRW (create_whiteout_worker env st w).2 w = some (0, 0) := by
  cases hce : env.creatErr with
  | some e =>
    simp only [create_whiteout_worker, hce] at h0
    exact absurd (h0 : e = 0) (by have := hc e hce; omega)
  | none =>
    by_cases hch : env.chownErr = 0
    · simp only [create_whiteout_worker, hce, if_pos hch]
      exact ownerRW_chownRW_addRW (removeRW st w) w RWKind.plain env.uid env.gid 0 0
    · simp only [create_whiteout_worker, hce, if_neg hch] at h0
      exact absurd h0 hch

theorem find_file_snd_of_rw {ctx : Ctx} {st : State} {p : String}
    (h : (find_file ctx st p 0).1 = READ_WRITE ∨ (find_file ctx st p 0).1 = READ_WRITE_COPYUP) :
    (find_file ctx st p 0).2 = ctx.read_write_branch ++ p := by
  rw [find_file_spec] at h ⊢
  by_cases h1 : find_whiteout ctx st p = 0
  · rw [if_pos h1] at h
    rcases h with h | h
    · exact absurd (h : -ENOENT = READ_WRITE) (by decide)
    · exact absurd (h : -ENOENT = READ_WRITE_COPYUP) (by decide)
  · rw [if_neg h1] at h ⊢
    by_cases h3 : containsRW st (ctx.read_write_branch ++ p)
    · rw [if_pos h3]
    · rw [if_neg h3] at h
      by_cases h4 : (ctx.read_only_branch ++ p) ∈ st.roObjs
      · rw [if_pos h4] at h
        rcases h with h | h
        · have h5 : READ_ONLY = READ_WRITE := h
          exact absurd h5 (by decide)
        · have h5 : READ_ONLY = READ_WRITE_COPYUP := h
          exact absurd h5 (by decide)
      · rw [if_neg h4] at h
        rcases h with h | h
        · exact absurd (h : -ENOENT = READ_WRITE) (by decide)
        · exact absurd (h : -ENOENT = READ_WRITE_COPYUP) (by decide)


/-- C1: create_whiteout_worker leaves a successfully created whiteout marker owned by uid 0 and gid 0; when the ownership change fails the just created marker is unlinked before the error is returned, and when creation itself fails the state is unchanged, so no marker ever persists without the fixed system identity; the outer create_whiteout inherits the success property at the marker path it computed. -/
theorem whiteout_marker_ownership (ctx : Ctx) (env : Env) (st : State) (wh path : String)
    (hc : ∀ e, env.creatErr = some e → e < 0) :
    ((create_whiteout_worker env st wh).1 = 0 →
      ownerRW (create_whiteout_worker env st wh).2 wh = some (0, 0)) ∧
    ((create_whiteout_worker env st wh).1 ≠ 0 → env.creatErr = none →
      ownerRW (create_whiteout_worker env st wh).2 wh = none) ∧
    (∀ e, env.creatErr = some e → create_whiteout_worker env st wh = (e, st)) ∧
    (∀ w, create_whiteout_path ctx path = .ok w → (create_whiteout ctx env st path).1 = 0 →
      ownerRW (create_whiteout ctx env st path).2 w = some (0, 0)) := by
  refine ⟨worker_owner_of_success env st wh hc, ?_, ?_, ?_⟩
  · intro hne hnone
    cases hce : env.creatErr with
    | some e =>
      rw [hce] at hnone
      exact absurd hnone (by simp)
    | none =>
      by_cases hch : env.chownErr = 0
      · simp only [create_whiteout_worker, hce, if_pos hch] at hne
        exact absurd rfl hne
      · simp only [create_whiteout_worker, hce, if_neg hch]
        exact ownerRW_removeRW_self _ wh
  · intro e hce
    simp only [create_whiteout_worker, hce]
  · intro w hw h0
    simp only [create_whiteout, hw, find_path] at h0 ⊢
    by_cases hfp : env.findPathErr < 0
    · rw [if_pos hfp] at h0
      have h1 : env.findPathErr = 0 := h0
      exact absurd h1 (by omega)
    · rw [if_neg hfp] at h0 ⊢
      exact worker_owner_of_success env st w hc h0

/-- C1 witness: with a failing ownership change, the worker leaves no marker object behind. -/
theorem whiteout_marker_ownership_w :
    ownerRW (create_whiteout_worker envChownFail stEmpty "/rw/.wh.f").2 "/rw/.wh.f" = none :=
  (whiteout_marker_ownership ctx0 envChownFail stEmpty "/rw/.wh.f" "/f"
    (fun e h => nomatch h)).2.1 (by decide) rfl

/-- C2 counterexample: with the whiteout marker for the virtual path slash f present, the first unlink_whiteout succeeds and the second, the marker now being absent, returns the negated ENOENT instead of succeeding. -/
theorem unlink_whiteout_second_call_fails :
    (unlink_whiteout ctx0 stMark "/f").1 = 0 ∧
    (unlink_whiteout ctx0 (unlink_whiteout ctx0 stMark "/f").2 "/f").1 = -ENOENT ∧
    ¬ (-ENOENT = (0 : Int)) := by decide

/-- C2 amended: unlink_whiteout removes an existing marker and returns zero, but when no marker object exists on the RW branch it returns the negated ENOENT dentry lookup failure with the state unchanged, so removal of an absent whiteout is an error, not a success; the callers in opts.c discard this return value. -/
theorem unlink_whiteout_amended (ctx : Ctx) (st : State) (path d l : String)
    (hsplit : splitLastSlash path = some (d, l))
    (hlen : ctx.read_write_branch.data.length < PATH_MAX) :
    (containsRW st (ctx.read_write_branch ++ d ++ ".wh." ++ l) →
      unlink_whiteout ctx st path =
        (0, removeRW st (ctx.read_write_branch ++ d ++ ".wh." ++ l))) ∧
    (¬ containsRW st (ctx.read_write_branch ++ d ++ ".wh." ++ l) →
      unlink_whiteout ctx st path = (-ENOENT, st)) := by
  have hok : unlink_whiteout_path ctx path =
      .ok (ctx.read_write_branch ++ d ++ ".wh." ++ l) := by
    rw [unlink_whiteout_path_eq]
    exact create_whiteout_path_ok ctx hsplit hlen
  constructor
  · intro hcont
    simp only [unlink_whiteout, hok]
    rw [if_pos hcont]
  · intro hcont
    simp only [unlink_whiteout, hok]
    rw [if_neg hcont]

/-- C2 amended witness: removal of the present marker of slash f succeeds. -/
theorem unlink_whiteout_amended_w :
    unlink_whiteout ctx0 stMark "/f" =
      (0, removeRW stMark (ctx0.read_write_branch ++ "/" ++ ".wh." ++ "f")) :=
  (unlink_whiteout_amended ctx0 stMark "/f" "/" "f" (by decide) (by decide)).1 (by decide)

/-- C3: each create-family operation, link, mkdir, mknod and symlink, fails with the negated EEXIST leaving the state unchanged whenever find_file on the target succeeds; for link the source is assumed to resolve, since that operation resolves its source first. -/
theorem create_family_eexist (ctx : Ctx) (env : Env) (st : State)
    (fromPath toPath symname : String) (mode : Nat)
    (hsrc : (find_file ctx st fromPath 0).1 ≥ 0)
    (hdst : (find_file ctx st toPath 0).1 ≥ 0) :
    pierrefs_link ctx env st fromPath toPath = (-EEXIST, st) ∧
    pierrefs_mkdir ctx env st toPath mode = (-EEXIST, st) ∧
    pierrefs_mknod ctx env st toPath mode = (-EEXIST, st) ∧
    pierrefs_symlink ctx env st toPath symname = (-EEXIST, st) := by
  refine ⟨?_, ?_, ?_, ?_⟩
  · simp only [pierrefs_link]
    rw [if_neg (by omega : ¬ ((find_file ctx st fromPath 0).1 < 0)), if_pos hdst]
  · simp only [pierrefs_mkdir]
    rw [if_pos hdst]
  · simp only [pierrefs_mknod]
    rw [if_pos hdst]
  · simp only [pierrefs_symlink]
    rw [if_pos hdst]

/-- C3 witness: with both slash a and slash b present on the RO branch, all four operations targeting slash b fail with the negated EEXIST and leave the state unchanged. -/
theorem create_family_eexist_w :
    pierrefs_link ctx0 envOk stRoAB "/a" "/b" = (-EEXIST, stRoAB) ∧
    pierrefs_mkdir ctx0 envOk stRoAB "/b" 493 = (-EEXIST, stRoAB) ∧
    pierrefs_mknod ctx0 envOk stRoAB "/b" 493 = (-EEXIST, stRoAB) ∧
    pierrefs_symlink ctx0 envOk stRoAB "/b" "t" = (-EEXIST, stRoAB) :=
  create_family_eexist ctx0 envOk stRoAB "/a" "/b" "t" 493 (by decide) (by decide)

/-- C5: pierrefs_setattr applies the attribute change directly to the RW object when the path resolves to READ_WRITE or READ_WRITE_COPYUP, and records it through the me overlay, leaving every branch object untouched, when the path resolves to READ_ONLY. -/
theorem setattr_routing (ctx : Ctx) (st : State) (path : String) (attr : Nat) :
    ((find_file ctx st path 0).1 = READ_WRITE ∨ (find_file ctx st path 0).1 = READ_WRITE_COPYUP →
      pierrefs_setattr ctx st path attr =
        (0, { st with directAttrs := (path, attr) :: st.directAttrs })) ∧
    ((find_file ctx st path 0).1 = READ_ONLY →
      pierrefs_setattr ctx st path attr =
        (0, { st with meAttrs := (path, attr) :: st.meAttrs })) := by
  constructor
  · intro h
    have hge : ¬ ((find_file ctx st path 0).1 < 0) := by
      rcases h with h | h <;> rw [h] <;> decide
    simp only [pierrefs_setattr]
    rw [if_neg hge, if_pos h]
  · intro h
    have hge : ¬ ((find_file ctx st path 0).1 < 0) := by
      rw [h]
      decide
    have hne : ¬ ((find_file ctx st path 0).1 = READ_WRITE ∨
        (find_file ctx st path 0).1 = READ_WRITE_COPYUP) := by
      rw [h]
      decide
    simp only [pierrefs_setattr]
    rw [if_neg hge, if_neg hne]

/-- C5 witness: on the read-only resolving path slash f the attribute change lands in the me overlay records. -/
theorem setattr_routing_w :
    pierrefs_setattr ctx0 stRoF "/f" 7 =
      (0, { stRoF with meAttrs := ("/f", 7) :: stRoF.meAttrs }) :=
  (setattr_routing ctx0 stRoF "/f" 7).2 (by decide)

/-- C8: the whiteout marker path computed identically by create_whiteout, find_whiteout and unlink_whiteout is exactly the RW branch root, then the parent directory with its trailing separator, then the reserved token dot wh dot immediately followed by the leaf name, assuming the branch root fits its buffer as mount-time validation guarantees. -/
theorem whiteout_marker_path_layout (ctx : Ctx) (D L : String) (hL : '/' ∉ L.data)
    (hlen : ctx.read_write_branch.data.length < PATH_MAX) :
    create_whiteout_path ctx (D ++ "/" ++ L) =
      .ok (ctx.read_write_branch ++ (D ++ "/") ++ ".wh." ++ L) ∧
    find_whiteout_path ctx (D ++ "/" ++ L) =
      .ok (ctx.read_write_branch ++ (D ++ "/") ++ ".wh." ++ L) ∧
    unlink_whiteout_path ctx (D ++ "/" ++ L) =
      .ok (ctx.read_write_branch ++ (D ++ "/") ++ ".wh." ++ L) := by
  have h := create_whiteout_path_ok ctx (splitLastSlash_append D L hL) hlen
  refine ⟨h, ?_, ?_⟩
  · rw [find_whiteout_path_eq]
    exact h
  · rw [unlink_whiteout_path_eq]
    exact h

/-- C8 witness: concrete marker path layout for the virtual path slash d slash f under the branch root slash rw. -/
theorem whiteout_marker_path_layout_w :
    create_whiteout_path ctx0 ("/d" ++ "/" ++ "f") =
      .ok (ctx0.read_write_branch ++ ("/d" ++ "/") ++ ".wh." ++ "f") ∧
    find_whiteout_path ctx0 ("/d" ++ "/" ++ "f") =
      .ok (ctx0.read_write_branch ++ ("/d" ++ "/") ++ ".wh." ++ "f") ∧
    unlink_whiteout_path ctx0 ("/d" ++ "/" ++ "f") =
      .ok (ctx0.read_write_branch ++ ("/d" ++ "/") ++ ".wh." ++ "f") :=
  whiteout_marker_path_layout ctx0 "/d" "f" (by decide) (by decide)

/-- C9: at the branch root slash rw and the legal 4093 character virtual path longPath, create_whiteout composes a marker path of 4100 characters, exceeding PATH_MAX, and succeeds instead of failing with the negated ENAMETOOLONG: the source checks only the branch root length, the strcat calls append the directory part, the reserved token and the leaf unchecked, so an overlong concrete path is produced and written past the PATH_MAX buffer. -/
theorem create_whiteout_overlong_path :
    longPath.data.length < PATH_MAX ∧
    ∃ w, create_whiteout_path ctx0 longPath = .ok w ∧ PATH_MAX < w.data.length ∧
      (create_whiteout ctx0 envOk stEmpty longPath).1 = 0 := by
  have hL : '/' ∉ longLeaf.data := by
    intro hmem
    rw [show longLeaf.data = List.replicate 4092 'a' from rfl, List.mem_replicate] at hmem
    exact absurd hmem.2 (by decide)
  have heq : longPath = "" ++ "/" ++ longLeaf := rfl
  have hsplit : splitLastSlash longPath = some ("/", longLeaf) := by
    rw [heq, splitLastSlash_append "" longLeaf hL]
    rfl
  have hlen3 : ctx0.read_write_branch.data.length < PATH_MAX := by decide
  have hok := create_whiteout_path_ok ctx0 hsplit hlen3
  refine ⟨?_, ⟨_, hok, ?_, ?_⟩⟩
  · have h1 : longPath.data = '/' :: List.replicate 4092 'a' := rfl
    rw [h1, List.length_cons, List.length_replicate]
    decide
  · have h1 : (ctx0.read_write_branch ++ "/" ++ ".wh." ++ longLeaf).data.length = 4100 := by
      simp only [data_append, List.length_append]
      have ha : ctx0.read_write_branch.data.length = 3 := rfl
      have hb : ("/" : String).data.length = 1 := rfl
      have hc2 : (".wh." : String).data.length = 4 := rfl
      have hd : longLeaf.data.length = 4092 := by
        rw [show longLeaf.data = List.replicate 4092 'a' from rfl, List.length_replicate]
      rw [ha, hb, hc2, hd]
    rw [h1]
    decide
  · simp only [create_whiteout, hok, find_path]
    rw [if_neg (by decide : ¬ ((envOk.findPathErr : Int) < 0))]
    simp only [create_whiteout_worker]
    rfl


theorem unlink_whiteout_eq_of_ok {ctx : Ctx} {path w : String} (st : State)
    (hw : unlink_whiteout_path ctx path = .ok w) :
    unlink_whiteout ctx st path =
      if containsRW st w then ((0 : Int), removeRW st w) else (-ENOENT, st) := by
  rw [unlink_whiteout, hw]

theorem find_whiteout_eq_of_ok {ctx : Ctx} {path w : String} (st : State)
    (hw : find_whiteout_path ctx path = .ok w) :
    find_whiteout ctx st path = if containsRW st w then 0 else -ENOENT := by
  rw [find_whiteout, hw]

theorem create_whiteout_path_ok_inv {ctx : Ctx} {path w : String}
    (h : create_whiteout_path ctx path = .ok w) :
    ∃ d l, splitLastSlash path = some (d, l) := by
  rw [create_whiteout_path] at h
  cases hs : splitLastSlash path with
  | none =>
    rw [hs] at h
    exact Except.noConfusion h
  | some dl =>
    exact ⟨dl.1, dl.2, rfl⟩

theorem rw_concrete_ne_whiteout_path {ctx : Ctx} {path w : String} (q : String)
    (hq : q.data.length = ctx.read_write_branch.data.length + path.data.length)
    (hok : unlink_whiteout_path ctx path = .ok w)
    (hlen : ctx.read_write_branch.data.length < PATH_MAX) :
    q ≠ w := by
  rw [unlink_whiteout_path_eq] at hok
  obtain ⟨d, l, hsplit⟩ := create_whiteout_path_ok_inv hok
  have hwlen := whiteout_path_data_length ctx hsplit hlen hok
  exact ne_of_data_length_ne (by omega)

theorem hasObj_unlink_whiteout {ctx : Ctx} {st : State} {path p : String} {k : RWKind}
    (h : hasObj st p k)
    (hne : ∀ w, unlink_whiteout_path ctx path = .ok w → p ≠ w) :
    hasObj (unlink_whiteout ctx st path).2 p k := by
  cases hw : unlink_whiteout_path ctx path with
  | error e =>
    rw [unlink_whiteout, hw]
    exact h
  | ok w =>
    rw [unlink_whiteout_eq_of_ok st hw]
    by_cases hc : containsRW st w
    · rw [if_pos hc]
      exact hasObj_removeRW.mpr ⟨h, hne w hw⟩
    · rw [if_neg hc]
      exact h

theorem hasObj_of_unlink_whiteout {ctx : Ctx} {st : State} {path p : String} {k : RWKind}
    (h : hasObj (unlink_whiteout ctx st path).2 p k) : hasObj st p k := by
  cases hw : unlink_whiteout_path ctx path with
  | error e =>
    rw [unlink_whiteout, hw] at h
    exact h
  | ok w =>
    rw [unlink_whiteout_eq_of_ok st hw] at h
    by_cases hc : containsRW st w
    · rw [if_pos hc] at h
      exact (hasObj_removeRW.mp h).1
    · rw [if_neg hc] at h
      exact h


/-- C4: when the link source resolves to READ_ONLY, pierrefs_link creates on the RW branch a symbolic link at the composed RW destination whose target is the RO concrete path of the source, and no true hard link; when the source resolves to a RW backed state, it creates a true hard link at the composed RW destination whose source is the RW concrete path. -/
theorem link_readonly_symlink_fallback (ctx : Ctx) (env : Env) (st : State)
    (fromPath toPath : String)
    (hdst : (find_file ctx st toPath 0).1 < 0)
    (hclean : ¬ containsRW st (ctx.read_write_branch ++ toPath))
    (hcc : 0 ≤ env.canCreateErr) (hfp : 0 ≤ env.findPathErr)
    (hsym : 0 ≤ env.symlinkErr) (hlink : 0 ≤ env.linkErr)
    (hlen : (ctx.read_write_branch ++ toPath).data.length < PATH_MAX) :
    ((find_file ctx st fromPath 0).1 = READ_ONLY →
      (pierrefs_link ctx env st fromPath toPath).1 = 0 ∧
      hasObj (pierrefs_link ctx env st fromPath toPath).2 (ctx.read_write_branch ++ toPath)
        (RWKind.sym (ctx.read_only_branch ++ fromPath)) ∧
      ∀ s, ¬ hasObj (pierrefs_link ctx env st fromPath toPath).2
        (ctx.read_write_branch ++ toPath) (RWKind.hard s)) ∧
    ((find_file ctx st fromPath 0).1 = READ_WRITE ∨
        (find_file ctx st fromPath 0).1 = READ_WRITE_COPYUP →
      (pierrefs_link ctx env st fromPath toPath).1 = 0 ∧
      hasObj (pierrefs_link ctx env st fromPath toPath).2 (ctx.read_write_branch ++ toPath)
        (RWKind.hard (ctx.read_write_branch ++ fromPath))) := by
  have hdstne : ¬ ((find_file ctx st toPath 0).1 ≥ 0) := by omega
  have hccne : ¬ (env.canCreateErr < 0) := by omega
  have hsymne : ¬ (env.symlinkErr < 0) := by omega
  have hlinkne : ¬ (env.linkErr < 0) := by omega
  have hfp2 : find_path ctx env toPath = .ok (ctx.read_write_branch ++ toPath) := by
    rw [find_path, if_neg (by omega : ¬ (env.findPathErr < 0))]
  have hqlen : (ctx.read_write_branch ++ toPath).data.length =
      ctx.read_write_branch.data.length + toPath.data.length := by
    rw [data_append, List.length_append]
  have hrwlen : ctx.read_write_branch.data.length < PATH_MAX := by omega
  have hne : ∀ w, unlink_whiteout_path ctx toPath = .ok w →
      (ctx.read_write_branch ++ toPath) ≠ w :=
    fun w hw => rw_concrete_ne_whiteout_path _ hqlen hw hrwlen
  constructor
  · intro hro
    have hsrcne : ¬ ((find_file ctx st fromPath 0).1 < 0) := by
      rw [hro]
      decide
    have h2 := find_file_snd_of_ro hro
    have hred : pierrefs_link ctx env st fromPath toPath =
        (0, (unlink_whiteout ctx (addRW st ⟨ctx.read_write_branch ++ toPath,
          RWKind.sym (ctx.read_only_branch ++ fromPath), env.uid, env.gid⟩) toPath).2) := by
      simp only [pierrefs_link, hfp2, h2]
      rw [if_neg hsrcne, if_neg hdstne, if_neg hccne, if_pos hro, if_neg hsymne]
    rw [hred]
    refine ⟨rfl, ?_, ?_⟩
    · exact hasObj_unlink_whiteout (hasObj_addRW.mpr (Or.inl ⟨rfl, rfl⟩)) hne
    · intro s hcontra
      rcases hasObj_addRW.mp (hasObj_of_unlink_whiteout hcontra) with ⟨-, hk⟩ | hst
      · exact RWKind.noConfusion hk
      · exact hclean (containsRW_of_hasObj hst)
  · intro hrw
    have hsrcne : ¬ ((find_file ctx st fromPath 0).1 < 0) := by
      rcases hrw with h | h <;> rw [h] <;> decide
    have hnro : ¬ ((find_file ctx st fromPath 0).1 = READ_ONLY) := by
      rcases hrw with h | h <;> rw [h] <;> decide
    have h2 := find_file_snd_of_rw hrw
    have hmk1 : (make_rw_path ctx toPath).1 = ctx.read_write_branch ++ toPath := by
      rw [make_rw_path, snprintf_copy_full hlen]
    have hmk2 : (make_rw_path ctx toPath).2 = (ctx.read_write_branch ++ toPath).data.length := rfl
    have hmkne : ¬ (((make_rw_path ctx toPath).2 : Int) > (PATH_MAX : Int)) := by
      rw [hmk2]
      have h5 : (ctx.read_write_branch ++ toPath).data.length < 4096 := by
        simpa [PATH_MAX] using hlen
      simp only [PATH_MAX]
      omega
    have hred : pierrefs_link ctx env st fromPath toPath =
        (0, (unlink_whiteout ctx (addRW st ⟨ctx.read_write_branch ++ toPath,
          RWKind.hard (ctx.read_write_branch ++ fromPath), env.uid, env.gid⟩) toPath).2) := by
      simp only [pierrefs_link, hfp2, h2, hmk1]
      rw [if_neg hsrcne, if_neg hdstne, if_neg hccne, if_neg hnro, if_neg hmkne, if_neg hlinkne]
    rw [hred]
    exact ⟨rfl, hasObj_unlink_whiteout (hasObj_addRW.mpr (Or.inl ⟨rfl, rfl⟩)) hne⟩

/-- C4 witness: linking the read-only resolving source slash f to the fresh destination slash b yields a symbolic link on RW targeting the RO concrete source path, and no hard link. -/
theorem link_readonly_symlink_fallback_w :
    (pierrefs_link ctx0 envOk stRoF "/f" "/b").1 = 0 ∧
    hasObj (pierrefs_link ctx0 envOk stRoF "/f" "/b").2 (ctx0.read_write_branch ++ "/b")
      (RWKind.sym (ctx0.read_only_branch ++ "/f")) ∧
    ∀ s, ¬ hasObj (pierrefs_link ctx0 envOk stRoF "/f" "/b").2
      (ctx0.read_write_branch ++ "/b") (RWKind.hard s) :=
  (link_readonly_symlink_fallback ctx0 envOk stRoF "/f" "/b" (by decide) (by decide)
    (by decide) (by decide) (by decide) (by decide) (by decide)).1 (by decide)


theorem post_create_state_ok (ctx : Ctx) (st : State) (path d l : String) (o : RWObj)
    (hsplit : splitLastSlash path = some (d, l))
    (hlen : ctx.read_write_branch.data.length < PATH_MAX)
    (hopath : o.path = ctx.read_write_branch ++ path) :
    ¬ containsRW (unlink_whiteout ctx (addRW st o) path).2
        (ctx.read_write_branch ++ d ++ ".wh." ++ l) ∧
    (find_file ctx (unlink_whiteout ctx (addRW st o) path).2 path 0).1 ≥ 0 := by
  have hokc : create_whiteout_path ctx path =
      .ok (ctx.read_write_branch ++ d ++ ".wh." ++ l) :=
    create_whiteout_path_ok ctx hsplit hlen
  have hok : unlink_whiteout_path ctx path =
      .ok (ctx.read_write_branch ++ d ++ ".wh." ++ l) := by
    rw [unlink_whiteout_path_eq]
    exact hokc
  have hokf : find_whiteout_path ctx path =
      .ok (ctx.read_write_branch ++ d ++ ".wh." ++ l) := by
    rw [find_whiteout_path_eq]
    exact hokc
  have hwlen := whiteout_path_data_length ctx hsplit hlen hokc
  have hone : o.path ≠ (ctx.read_write_branch ++ d ++ ".wh." ++ l) := by
    apply ne_of_data_length_ne
    rw [hopath, data_append, List.length_append]
    omega
  have hpost : ∀ st2 : State,
      ¬ containsRW st2 (ctx.read_write_branch ++ d ++ ".wh." ++ l) →
      containsRW st2 (ctx.read_write_branch ++ path) →
      (find_file ctx st2 path 0).1 ≥ 0 := by
    intro st2 hnm hin
    have hfw : find_whiteout ctx st2 path = -ENOENT := by
      rw [find_whiteout_eq_of_ok st2 hokf, if_neg hnm]
    rw [find_file_spec]
    rw [if_neg (show ¬ (find_whiteout ctx st2 path = 0) by rw [hfw]; decide), if_pos hin]
    by_cases hro : (ctx.read_only_branch ++ path) ∈ st2.roObjs
    · rw [if_pos hro]
      show READ_WRITE_COPYUP ≥ 0
      decide
    · rw [if_neg hro]
      show READ_WRITE ≥ 0
      decide
  rw [unlink_whiteout_eq_of_ok _ hok]
  by_cases hc : containsRW (addRW st o) (ctx.read_write_branch ++ d ++ ".wh." ++ l)
  · rw [if_pos hc]
    have hnm : ¬ containsRW (removeRW (addRW st o) (ctx.read_write_branch ++ d ++ ".wh." ++ l))
        (ctx.read_write_branch ++ d ++ ".wh." ++ l) := by
      rw [containsRW_removeRW]
      rintro ⟨-, hne2⟩
      exact hne2 rfl
    refine ⟨hnm, hpost _ hnm ?_⟩
    rw [containsRW_removeRW]
    refine ⟨containsRW_addRW.mpr (Or.inl hopath.symm), ?_⟩
    rw [← hopath]
    exact hone
  · rw [if_neg hc]
    exact ⟨hc, hpost _ hc (containsRW_addRW.mpr (Or.inl hopath.symm))⟩

/-- C7: a successful re-creation through pierrefs_mknod, pierrefs_symlink or pierrefs_mkdir removes any whiteout marker previously hiding the path, and a subsequent resolution of the path no longer reports it non-existent. -/
theorem recreate_clears_whiteout (ctx : Ctx) (env : Env) (st : State)
    (path symname d l : String) (mode : Nat)
    (hsplit : splitLastSlash path = some (d, l))
    (hlen : (ctx.read_write_branch ++ path).data.length < PATH_MAX) :
    ((pierrefs_mknod ctx env st path mode).1 = 0 →
      ¬ containsRW (pierrefs_mknod ctx env st path mode).2
          (ctx.read_write_branch ++ d ++ ".wh." ++ l) ∧
      (find_file ctx (pierrefs_mknod ctx env st path mode).2 path 0).1 ≥ 0) ∧
    ((pierrefs_symlink ctx env st path symname).1 = 0 →
      ¬ containsRW (pierrefs_symlink ctx env st path symname).2
          (ctx.read_write_branch ++ d ++ ".wh." ++ l) ∧
      (find_file ctx (pierrefs_symlink ctx env st path symname).2 path 0).1 ≥ 0) ∧
    ((pierrefs_mkdir ctx env st path mode).1 = 0 →
      ¬ containsRW (pierrefs_mkdir ctx env st path mode).2
          (ctx.read_write_branch ++ d ++ ".wh." ++ l) ∧
      (find_file ctx (pierrefs_mkdir ctx env st path mode).2 path 0).1 ≥ 0) := by
  have hqlen : (ctx.read_write_branch ++ path).data.length =
      ctx.read_write_branch.data.length + path.data.length := by
    rw [data_append, List.length_append]
  have hrwlen : ctx.read_write_branch.data.length < PATH_MAX := by omega
  refine ⟨?_, ?_, ?_⟩
  · intro h0
    by_cases hff : (find_file ctx st path 0).1 ≥ 0
    · have hred : pierrefs_mknod ctx env st path mode = (-EEXIST, st) := by
        simp only [pierrefs_mknod]
        rw [if_pos hff]
      rw [hred] at h0
      have h1 : -EEXIST = (0 : Int) := h0
      exact absurd h1 (by decide)
    · by_cases hfpc : env.findPathErr < 0
      · have hfp2 : find_path ctx env path = .error env.findPathErr := by
          rw [find_path, if_pos hfpc]
        have hred : pierrefs_mknod ctx env st path mode = (env.findPathErr, st) := by
          simp only [pierrefs_mknod, hfp2]
          rw [if_neg hff]
        rw [hred] at h0
        have h1 : env.findPathErr = 0 := h0
        omega
      · have hfp2 : find_path ctx env path = .ok (ctx.read_write_branch ++ path) := by
          rw [find_path, if_neg hfpc]
        by_cases hfifo : S_ISFIFO mode = true
        · by_cases hmf : env.mkfifoErr < 0
          · have hred : pierrefs_mknod ctx env st path mode = (env.mkfifoErr, st) := by
              simp only [pierrefs_mknod, hfp2]
              rw [if_neg hff, if_pos hfifo, if_pos hmf]
            rw [hred] at h0
            have h1 : env.mkfifoErr = 0 := h0
            omega
          · have hred : pierrefs_mknod ctx env st path mode =
                (0, (unlink_whiteout ctx (addRW st ⟨ctx.read_write_branch ++ path,
                  RWKind.fifo, env.uid, env.gid⟩) path).2) := by
              simp only [pierrefs_mknod, hfp2]
              rw [if_neg hff, if_pos hfifo, if_neg hmf]
            rw [hred]
            exact post_create_state_ok ctx st path d l _ hsplit hrwlen rfl
        · by_cases hmn : env.mknodErr < 0
          · have hred : pierrefs_mknod ctx env st path mode = (env.mknodErr, st) := by
              simp only [pierrefs_mknod, hfp2]
              rw [if_neg hff, if_neg hfifo, if_pos hmn]
            rw [hred] at h0
            have h1 : env.mknodErr = 0 := h0
            omega
          · have hred : pierrefs_mknod ctx env st path mode =
                (0, (unlink_whiteout ctx (addRW st ⟨ctx.read_write_branch ++ path,
                  RWKind.node, env.uid, env.gid⟩) path).2) := by
              simp only [pierrefs_mknod, hfp2]
              rw [if_neg hff, if_neg hfifo, if_neg hmn]
            rw [hred]
            exact post_create_state_ok ctx st path d l _ hsplit hrwlen rfl
  · intro h0
    by_cases hff : (find_file ctx st path 0).1 ≥ 0
    · have hred : pierrefs_symlink ctx env st path symname = (-EEXIST, st) := by
        simp only [pierrefs_symlink]
        rw [if_pos hff]
      rw [hred] at h0
      have h1 : -EEXIST = (0 : Int) := h0
      exact absurd h1 (by decide)
    · have hmk2 : (make_rw_path ctx path).2 = (ctx.read_write_branch ++ path).data.length := rfl
      have hmkne : ¬ (((make_rw_path ctx path).2 : Int) > (PATH_MAX : Int)) := by
        rw [hmk2]
        have h5 : (ctx.read_write_branch ++ path).data.length < 4096 := by
          simpa [PATH_MAX] using hlen
        simp only [PATH_MAX]
        omega
      by_cases hccc : env.canCreateErr < 0
      · have hred : pierrefs_symlink ctx env st path symname = (env.canCreateErr, st) := by
          simp only [pierrefs_symlink]
          rw [if_neg hff, if_neg hmkne, if_pos hccc]
        rw [hred] at h0
        have h1 : env.canCreateErr = 0 := h0
        omega
      · by_cases hfpc : env.findPathErr < 0
        · have hfp2 : find_path ctx env path = .error env.findPathErr := by
            rw [find_path, if_pos hfpc]
          have hred : pierrefs_symlink ctx env st path symname = (env.findPathErr, st) := by
            simp only [pierrefs_symlink, hfp2]
            rw [if_neg hff, if_neg hmkne, if_neg hccc]
          rw [hred] at h0
          have h1 : env.findPathErr = 0 := h0
          omega
        · have hfp2 : find_path ctx env path = .ok (ctx.read_write_branch ++ path) := by
            rw [find_path, if_neg hfpc]
          by_cases hsl : env.symlinkErr < 0
          · have hred : pierrefs_symlink ctx env st path symname = (env.symlinkErr, st) := by
              simp only [pierrefs_symlink, hfp2]
              rw [if_neg hff, if_neg hmkne, if_neg hccc, if_pos hsl]
            rw [hred] at h0
            have h1 : env.symlinkErr = 0 := h0
            omega
          · have hred : pierrefs_symlink ctx env st path symname =
                (0, (unlink_whiteout ctx (addRW st ⟨ctx.read_write_branch ++ path,
                  RWKind.sym symname, env.uid, env.gid⟩) path).2) := by
              simp only [pierrefs_symlink, hfp2]
              rw [if_neg hff, if_neg hmkne, if_neg hccc, if_neg hsl]
            rw [hred]
            exact post_create_state_ok ctx st path d l _ hsplit hrwlen rfl
  · intro h0
    by_cases hff : (find_file ctx st path 0).1 ≥ 0
    · have hred : pierrefs_mkdir ctx env st path mode = (-EEXIST, st) := by
        simp only [pierrefs_mkdir]
        rw [if_pos hff]
      rw [hred] at h0
      have h1 : -EEXIST = (0 : Int) := h0
      exact absurd h1 (by decide)
    · have hmk2 : (make_rw_path ctx path).2 = (ctx.read_write_branch ++ path).data.length := rfl
      have hmkne : ¬ (((make_rw_path ctx path).2 : Int) > (PATH_MAX : Int)) := by
        rw [hmk2]
        have h5 : (ctx.read_write_branch ++ path).data.length < 4096 := by
          simpa [PATH_MAX] using hlen
        simp only [PATH_MAX]
        omega
      by_cases hccc : env.canCreateErr < 0
      · have hred : pierrefs_mkdir ctx env st path mode = (env.canCreateErr, st) := by
          simp only [pierrefs_mkdir]
          rw [if_neg hff, if_neg hmkne, if_pos hccc]
        rw [hred] at h0
        have h1 : env.canCreateErr = 0 := h0
        omega
      · by_cases hfpc : env.findPathErr < 0
        · have hfp2 : find_path ctx env path = .error env.findPathErr := by
            rw [find_path, if_pos hfpc]
          have hred : pierrefs_mkdir ctx env st path mode = (env.findPathErr, st) := by
            simp only [pierrefs_mkdir, hfp2]
            rw [if_neg hff, if_neg hmkne, if_neg hccc]
          rw [hred] at h0
          have h1 : env.findPathErr = 0 := h0
          omega
        · have hfp2 : find_path ctx env path = .ok (ctx.read_write_branch ++ path) := by
            rw [find_path, if_neg hfpc]
          by_cases hmd : env.mkdirErr < 0
          · have hred : pierrefs_mkdir ctx env st path mode = (env.mkdirErr, st) := by
              simp only [pierrefs_mkdir, hfp2]
              rw [if_neg hff, if_neg hmkne, if_neg hccc, if_pos hmd]
            rw [hred] at h0
            have h1 : env.mkdirErr = 0 := h0
            omega
          · have hred : pierrefs_mkdir ctx env st path mode =
                (-EINVAL, removeRW (addRW st ⟨ctx.read_write_branch ++ path,
                  RWKind.dir, env.uid, env.gid⟩) (ctx.read_write_branch ++ path)) := by
              simp only [pierrefs_mkdir, hfp2, hide_directory_contents]
              rw [if_neg hff, if_neg hmkne, if_neg hccc, if_neg hmd,
                if_pos (by decide : -EINVAL < (0 : Int))]
            rw [hred] at h0
            have h1 : -EINVAL = (0 : Int) := h0
            exact absurd h1 (by decide)

/-- C7 witness: re-creating slash f through pierrefs_mknod over its existing whiteout marker succeeds, removes the marker, and the path then resolves. -/
theorem recreate_clears_whiteout_w :
    ¬ containsRW (pierrefs_mknod ctx0 envOk stMark "/f" 32768).2
        (ctx0.read_write_branch ++ "/" ++ ".wh." ++ "f") ∧
    (find_file ctx0 (pierrefs_mknod ctx0 envOk stMark "/f" 32768).2 "/f" 0).1 ≥ 0 :=
  (recreate_clears_whiteout ctx0 envOk stMark "/f" "t" "/" "f" 32768
    (by decide) (by decide)).1 (by decide)


theorem unlink_rw_file_red (ctx : Ctx) (env : Env) (st : State)
    (path rw_path : String) (has_ro_sure : Bool)
    (hcr : ¬ (env.canRemoveErr < 0)) (hun : ¬ (env.unlinkErr < 0))
    (hpres : containsRW st rw_path) :
    unlink_rw_file ctx env st path rw_path has_ro_sure =
      if (if has_ro_sure then true
          else decide ((find_file ctx st path MUST_READ_ONLY).1 ≥ 0)) = true
      then (0, (create_whiteout ctx env (removeRW st rw_path) path).2)
      else (0, removeRW st rw_path) := by
  simp only [unlink_rw_file]
  rw [if_neg hcr, if_neg (not_not_intro hpres), if_neg hun]

/-- C6: a successful unlink_rw_file removes the RW object and leaves a whiteout marker exactly when the caller asserted a read-only counterpart or one exists on the RO branch, all external helper steps succeeding. -/
theorem unlink_rw_file_whiteout_exactly (ctx : Ctx) (env : Env) (st : State)
    (path rw_path d l : String) (has_ro_sure : Bool)
    (hcr : 0 ≤ env.canRemoveErr) (hun : 0 ≤ env.unlinkErr) (hfp : 0 ≤ env.findPathErr)
    (hcreat : env.creatErr = none) (hchown : env.chownErr = 0)
    (hpres : containsRW st rw_path)
    (hsplit : splitLastSlash path = some (d, l))
    (hlen : ctx.read_write_branch.data.length < PATH_MAX)
    (hnomark : ¬ containsRW st (ctx.read_write_branch ++ d ++ ".wh." ++ l)) :
    (unlink_rw_file ctx env st path rw_path has_ro_sure).1 = 0 ∧
    ¬ containsRW (unlink_rw_file ctx env st path rw_path has_ro_sure).2 rw_path ∧
    (containsRW (unlink_rw_file ctx env st path rw_path has_ro_sure).2
        (ctx.read_write_branch ++ d ++ ".wh." ++ l) ↔
      (has_ro_sure = true ∨ (ctx.read_only_branch ++ path) ∈ st.roObjs)) := by
  have hok : create_whiteout_path ctx path =
      .ok (ctx.read_write_branch ++ d ++ ".wh." ++ l) :=
    create_whiteout_path_ok ctx hsplit hlen
  have hokf : find_whiteout_path ctx path =
      .ok (ctx.read_write_branch ++ d ++ ".wh." ++ l) := by
    rw [find_whiteout_path_eq]
    exact hok
  have hfw : find_whiteout ctx st path = -ENOENT := by
    rw [find_whiteout_eq_of_ok st hokf, if_neg hnomark]
  have hmro : find_file ctx st path MUST_READ_ONLY =
      if (ctx.read_only_branch ++ path) ∈ st.roObjs then
        (READ_ONLY, ctx.read_only_branch ++ path)
      else (-ENOENT, "") := by
    rw [find_file_must_ro_spec, if_neg (show ¬ (find_whiteout ctx st path = 0) by
      rw [hfw]; decide)]
  have hfp2 : find_path ctx env path = .ok (ctx.read_write_branch ++ path) := by
    rw [find_path, if_neg (by omega : ¬ (env.findPathErr < 0))]
  have hco : create_whiteout ctx env (removeRW st rw_path) path =
      (0, chownRW (addRW (removeRW (removeRW st rw_path)
          (ctx.read_write_branch ++ d ++ ".wh." ++ l))
        ⟨ctx.read_write_branch ++ d ++ ".wh." ++ l, RWKind.plain, env.uid, env.gid⟩)
        (ctx.read_write_branch ++ d ++ ".wh." ++ l) 0 0) := by
    simp only [create_whiteout, hok, hfp2, create_whiteout_worker, hcreat]
    rw [if_pos hchown]
  have hrwne : rw_path ≠ ctx.read_write_branch ++ d ++ ".wh." ++ l := by
    intro e
    exact hnomark (e ▸ hpres)
  have hred := unlink_rw_file_red ctx env st path rw_path has_ro_sure
    (by omega) (by omega) hpres
  cases has_ro_sure with
  | true =>
    rw [if_pos (show (if (true : Bool) then true
        else decide ((find_file ctx st path MUST_READ_ONLY).1 ≥ 0)) = true from rfl),
      hco] at hred
    rw [hred]
    refine ⟨rfl, ?_, ?_⟩
    · intro hcon
      rw [containsRW_chownRW, containsRW_addRW, containsRW_removeRW,
        containsRW_removeRW] at hcon
      rcases hcon with h | ⟨⟨-, h2⟩, -⟩
      · exact hrwne h
      · exact h2 rfl
    · constructor
      · intro _
        exact Or.inl rfl
      · intro _
        rw [containsRW_chownRW, containsRW_addRW]
        exact Or.inl rfl
  | false =>
    by_cases hro : (ctx.read_only_branch ++ path) ∈ st.roObjs
    · have h1 : (find_file ctx st path MUST_READ_ONLY).1 = READ_ONLY := by
        rw [hmro, if_pos hro]
      have hcond : (if (false : Bool) then true
          else decide ((find_file ctx st path MUST_READ_ONLY).1 ≥ 0)) = true := by
        rw [if_neg (by decide : ¬ ((false : Bool) = true)), h1]
        decide
      rw [hcond, if_pos rfl, hco] at hred
      rw [hred]
      refine ⟨rfl, ?_, ?_⟩
      · intro hcon
        rw [containsRW_chownRW, containsRW_addRW, containsRW_removeRW,
          containsRW_removeRW] at hcon
        rcases hcon with h | ⟨⟨-, h2⟩, -⟩
        · exact hrwne h
        · exact h2 rfl
      · constructor
        · intro _
          exact Or.inr hro
        · intro _
          rw [containsRW_chownRW, containsRW_addRW]
          exact Or.inl rfl
    · have h1 : (find_file ctx st path MUST_READ_ONLY).1 = -ENOENT := by
        rw [hmro, if_neg hro]
      have hcond : (if (false : Bool) then true
          else decide ((find_file ctx st path MUST_READ_ONLY).1 ≥ 0)) = false := by
        rw [if_neg (by decide : ¬ ((false : Bool) = true)), h1]
        decide
      rw [hcond, if_neg (by decide : ¬ ((false : Bool) = true))] at hred
      rw [hred]
      refine ⟨rfl, ?_, ?_⟩
      · intro hcon
        rw [containsRW_removeRW] at hcon
        exact hcon.2 rfl
      · constructor
        · intro hcon
          rw [containsRW_removeRW] at hcon
          exact absurd hcon.1 hnomark
        · intro hcon
          rcases hcon with h | h
          · exact Bool.noConfusion h
          · exact absurd h hro

/-- C6 witness: deleting the copied-up slash f whose RO original exists returns zero, removes the RW object and creates the whiteout marker. -/
theorem unlink_rw_file_whiteout_exactly_w :
    (unlink_rw_file ctx0 envOk stRwF "/f" "/rw/f" false).1 = 0 ∧
    ¬ containsRW (unlink_rw_file ctx0 envOk stRwF "/f" "/rw/f" false).2 "/rw/f" ∧
    (containsRW (unlink_rw_file ctx0 envOk stRwF "/f" "/rw/f" false).2
        (ctx0.read_write_branch ++ "/" ++ ".wh." ++ "f") ↔
      (false = true ∨ (ctx0.read_only_branch ++ "/f") ∈ stRwF.roObjs)) :=
  unlink_rw_file_whiteout_exactly ctx0 envOk stRwF "/f" "/rw/f" "/" "f" false
    (by decide) (by decide) (by decide) rfl rfl (by decide) (by decide) (by decide) (by decide)

/-- C10: with the ownership change inside whiteout creation failing, a delete of the RW object whose caller asserts a RO counterpart still returns zero: the failing create_whiteout outcome is discarded, no marker is left on the RW branch and the RO original remains. -/
theorem unlink_rw_discards_whiteout_failure (ctx : Ctx) (env : Env) (st : State)
    (path rw_path d l : String)
    (hcr : 0 ≤ env.canRemoveErr) (hun : 0 ≤ env.unlinkErr) (hfp : 0 ≤ env.findPathErr)
    (hcreat : env.creatErr = none) (hchown : env.chownErr < 0)
    (hpres : containsRW st rw_path)
    (hsplit : splitLastSlash path = some (d, l))
    (hlen : ctx.read_write_branch.data.length < PATH_MAX) :
    (unlink_rw_file ctx env st path rw_path true).1 = 0 ∧
    (create_whiteout ctx env (removeRW st rw_path) path).1 < 0 ∧
    ¬ containsRW (unlink_rw_file ctx env st path rw_path true).2
        (ctx.read_write_branch ++ d ++ ".wh." ++ l) ∧
    (unlink_rw_file ctx env st path rw_path true).2.roObjs = st.roObjs := by
  have hok : create_whiteout_path ctx path =
      .ok (ctx.read_write_branch ++ d ++ ".wh." ++ l) :=
    create_whiteout_path_ok ctx hsplit hlen
  have hfp2 : find_path ctx env path = .ok (ctx.read_write_branch ++ path) := by
    rw [find_path, if_neg (by omega : ¬ (env.findPathErr < 0))]
  have hco : create_whiteout ctx env (removeRW st rw_path) path =
      (env.chownErr, removeRW (addRW (removeRW (removeRW st rw_path)
          (ctx.read_write_branch ++ d ++ ".wh." ++ l))
        ⟨ctx.read_write_branch ++ d ++ ".wh." ++ l, RWKind.plain, env.uid, env.gid⟩)
        (ctx.read_write_branch ++ d ++ ".wh." ++ l)) := by
    simp only [create_whiteout, hok, hfp2, create_whiteout_worker, hcreat]
    rw [if_neg (by omega : ¬ (env.chownErr = 0))]
  have hred := unlink_rw_file_red ctx env st path rw_path true
    (by omega) (by omega) hpres
  rw [if_pos (show (if (true : Bool) then true
      else decide ((find_file ctx st path MUST_READ_ONLY).1 ≥ 0)) = true from rfl)] at hred
  refine ⟨by rw [hred], by rw [hco]; exact hchown, ?_, ?_⟩
  · rw [hred, hco]
    intro hcon
    rw [containsRW_removeRW] at hcon
    exact hcon.2 rfl
  · rw [hred, hco]
    rfl

/-- C10 witness: the concrete delete of slash f with a failing ownership change reports success while the whiteout creation failed, no marker exists and the RO original remains. -/
theorem unlink_rw_discards_whiteout_failure_w :
    (unlink_rw_file ctx0 envChownFail stRwF "/f" "/rw/f" true).1 = 0 ∧
    (create_whiteout ctx0 envChownFail (removeRW stRwF "/rw/f") "/f").1 < 0 ∧
    ¬ containsRW (unlink_rw_file ctx0 envChownFail stRwF "/f" "/rw/f" true).2
        (ctx0.read_write_branch ++ "/" ++ ".wh." ++ "f") ∧
    (unlink_rw_file ctx0 envChownFail stRwF "/f" "/rw/f" true).2.roObjs = stRwF.roObjs :=
  unlink_rw_discards_whiteout_failure ctx0 envChownFail stRwF "/f" "/rw/f" "/" "f"
    (by decide) (by decide) (by decide) rfl (by decide) (by decide) (by decide) (by decide)

end PierreFS
